import Mathlib

/-!
A shallow embedding of the `initkit` scaffolding CLI (`src/index.js`) and
proofs about its components: the interactive overwrite prompt, the recursive
directory copier, the package-manager detector, the dependency installer and
the `package.json` patcher.

Conventions of the embedding:
* Filesystem paths are canonical segment lists (`List String`); `join dir x`
  is `dir ++ [x]` and `relative base p` is `p.drop base.length`, which agrees
  with Node's `path` functions on the canonical paths the walk produces
  (every `srcPath` extends `baseSrc`).
* External effects (filesystem reads/writes, `access` checks, the console,
  the spawned child process) are modelled by explicit environment records and
  by state threading; each JS function becomes a pure Lean function of the
  environment and state.
* JSON documents are the inductive `Json` below; JavaScript objects are
  ordered association lists, and property assignment replaces an existing
  binding in place or appends a fresh one at the end, exactly as JS insertion
  order works.  JSON numbers are modelled as `Int` (no claim inspects a
  numeric value).
-/

namespace Initkit

/-! ## Ordered association lists (JS object insertion-order semantics) -/

/-- Look up the first binding of key `k` (JS property read on an object). -/
def getAssoc {α β : Type} [DecidableEq α] : List (α × β) → α → Option β
  | [], _ => none
  | (k', v) :: tl, k => if k' = k then some v else getAssoc tl k

/-- JS property assignment on an object: replace the existing binding in
place (keeping its position in insertion order), or append a new binding at
the end. -/
def updAssoc {α β : Type} [DecidableEq α] : List (α × β) → α → β → List (α × β)
  | [], k, v => [(k, v)]
  | (k', v') :: tl, k, v =>
      if k' = k then (k, v) :: tl else (k', v') :: updAssoc tl k v

/-- The keys of an association list, in order. -/
def keysOf {α β : Type} (l : List (α × β)) : List α := l.map Prod.fst

theorem getAssoc_updAssoc_self {α β : Type} [DecidableEq α]
    (l : List (α × β)) (k : α) (v : β) : getAssoc (updAssoc l k v) k = some v := by
  induction l with
  | nil => simp [updAssoc, getAssoc]
  | cons hd tl ih =>
      obtain ⟨k', v'⟩ := hd
      by_cases h : k' = k
      · simp [updAssoc, h, getAssoc]
      · simp [updAssoc, h, getAssoc, ih]

theorem getAssoc_updAssoc_ne {α β : Type} [DecidableEq α]
    (l : List (α × β)) (k k' : α) (v : β) (h : k' ≠ k) :
    getAssoc (updAssoc l k v) k' = getAssoc l k' := by
  induction l with
  | nil => simp [updAssoc, getAssoc, Ne.symm h]
  | cons hd tl ih =>
      obtain ⟨k₀, v₀⟩ := hd
      by_cases h₀ : k₀ = k
      · subst h₀
        simp [updAssoc, getAssoc, Ne.symm h]
      · simp only [updAssoc, if_neg h₀, getAssoc]
        by_cases h₁ : k₀ = k'
        · simp [h₁]
        · simp [h₁, ih]

theorem keysOf_updAssoc {α β : Type} [DecidableEq α]
    (l : List (α × β)) (k : α) (v : β) :
    keysOf (updAssoc l k v) =
      if k ∈ keysOf l then keysOf l else keysOf l ++ [k] := by
  induction l with
  | nil => simp [updAssoc, keysOf]
  | cons hd tl ih =>
      obtain ⟨k₀, v₀⟩ := hd
      by_cases h₀ : k₀ = k
      · subst h₀
        simp [updAssoc, keysOf]
      · simp only [updAssoc, if_neg h₀, keysOf, List.map_cons]
        rw [show (updAssoc tl k v).map Prod.fst = keysOf (updAssoc tl k v) from rfl, ih]
        simp only [keysOf, List.mem_cons]
        by_cases hm : k ∈ tl.map Prod.fst
        · simp [hm]
        · simp [hm, Ne.symm h₀]

/-! ## JSON documents -/

/-- A parsed JSON document (the result of `JSON.parse`).  Objects keep their
members in insertion order.  Numbers are modelled as `Int`. -/
inductive Json : Type where
  | null : Json
  | bool : Bool → Json
  | num : Int → Json
  | str : String → Json
  | arr : List Json → Json
  | obj : List (String × Json) → Json

/-- JavaScript truthiness of a JSON value (`!packageJson.scripts` tests
falsiness): `null`, `false`, `0` and `""` are falsy, everything else is
truthy. -/
def truthy : Json → Bool
  | .null => false
  | .bool b => b
  | .num n => n ≠ 0
  | .str s => s ≠ ""
  | .arr _ => true
  | .obj _ => true

/-! ## JSON serialization: `JSON.stringify(value, null, 2)`

The patcher writes `JSON.stringify(packageJson, null, 2) + "\n"`.  We embed
the ECMAScript serialization algorithm for a `2`-space gap, working over
`List Char` so that facts about the produced text are plain list lemmas. -/

/-- Lower-case hexadecimal digit, used for `\uXXXX` escapes of control
characters. -/
def hexDigit (n : Nat) : Char :=
  if n < 10 then Char.ofNat (48 + n) else Char.ofNat (87 + n)

/-- The escape sequence `QuoteJSONString` produces for one character. -/
def escapeChar (c : Char) : List Char :=
  if c = '"' then ['\\', '"']
  else if c = '\\' then ['\\', '\\']
  else if c = '\x08' then ['\\', 'b']
  else if c = '\x0c' then ['\\', 'f']
  else if c = '\n' then ['\\', 'n']
  else if c = '\r' then ['\\', 'r']
  else if c = '\t' then ['\\', 't']
  else if c.toNat < 32 then
    ['\\', 'u', '0', '0', hexDigit (c.toNat / 16), hexDigit (c.toNat % 16)]
  else [c]

/-- A JSON string literal: the source text wrapped in quotes with characters
escaped. -/
def quoteString (s : String) : List Char :=
  ('"' :: s.data.flatMap escapeChar) ++ ['"']

/-- The gap for an indent argument of `2`: two spaces. -/
def gap : List Char := [' ', ' ']

mutual

/-- Serialize one JSON value at indentation `ind`
(`JSON.stringify(value, null, 2)` semantics). -/
def serJson (ind : List Char) : Json → List Char
  | .null => "null".data
  | .bool b => (cond b "true" "false").data
  | .num n => (toString n).data
  | .str s => quoteString s
  | .arr [] => ['[', ']']
  | .arr (e :: es) =>
      '[' :: '\n' :: ((ind ++ gap) ++ (serJson (ind ++ gap) e ++
        (serElemsRest (ind ++ gap) es ++ ('\n' :: (ind ++ [']'])))))
  | .obj [] => ['{', '}']
  | .obj (m :: ms) =>
      '{' :: '\n' :: ((ind ++ gap) ++ (serMember (ind ++ gap) m ++
        (serMembersRest (ind ++ gap) ms ++ ('\n' :: (ind ++ ['}'])))))

/-- Serialize one object member as `"key": value`. -/
def serMember (ind : List Char) : String × Json → List Char
  | (k, v) => quoteString k ++ (':' :: ' ' :: serJson ind v)

/-- The remaining array elements, each preceded by `",\n" ++ ind`. -/
def serElemsRest (ind : List Char) : List Json → List Char
  | [] => []
  | e :: es => ',' :: '\n' :: (ind ++ (serJson ind e ++ serElemsRest ind es))

/-- The remaining object members, each preceded by `",\n" ++ ind`. -/
def serMembersRest (ind : List Char) : List (String × Json) → List Char
  | [] => []
  | m :: ms => ',' :: '\n' :: (ind ++ (serMember ind m ++ serMembersRest ind ms))

end

/-- `JSON.stringify(j, null, 2)` as a string. -/
def jsonStringify (j : Json) : String := String.mk (serJson [] j)

/-! ## The Manifest Patcher (`updatePackageJson`, src/index.js 146-168) -/

/-- The in-place mutation block of `updatePackageJson` (lines 153-158):

```js
if (!packageJson.scripts) { packageJson.scripts = {}; }
packageJson.scripts.format = "prettier --write .";
packageJson.scripts["format:check"] = "prettier --check .";
```

run in an ES module, hence in strict mode.  Returns `none` when the JS code
throws a `TypeError` (assigning a property to a primitive), which the
surrounding `catch` then swallows; otherwise `some` of the document as the
subsequent `JSON.stringify` observes it.  Cases:
* primitives (`null`, booleans, numbers, strings) at top level: reading
  `.scripts` on `null` throws, and on the other primitives the assignment
  `packageJson.scripts = {}` throws in strict mode — `none`;
* a top-level array: `scripts` and the format keys become expando properties
  on the array, which `JSON.stringify` ignores, so the serialized document is
  the unchanged array;
* a top-level object: a falsy or missing `scripts` member is replaced by a
  fresh empty object, a truthy object member is mutated in place, a truthy
  array member only gains expando properties (ignored by `stringify`), and a
  truthy primitive member makes the `.format` assignment throw. -/
def patchScripts : Json → Option Json
  | .null => none
  | .bool _ => none
  | .num _ => none
  | .str _ => none
  | .arr elems => some (.arr elems)
  | .obj kvs =>
      match getAssoc kvs "scripts" with
      | some s =>
          if truthy s then
            match s with
            | .obj skvs =>
                let skvs' := updAssoc skvs "format" (.str "prettier --write .")
                let skvs'' := updAssoc skvs' "format:check" (.str "prettier --check .")
                some (.obj (updAssoc kvs "scripts" (.obj skvs'')))
            | .arr elems => some (.obj (updAssoc kvs "scripts" (.arr elems)))
            | _ => none
          else
            let skvs' := updAssoc ([] : List (String × Json)) "format"
              (.str "prettier --write .")
            let skvs'' := updAssoc skvs' "format:check" (.str "prettier --check .")
            some (.obj (updAssoc kvs "scripts" (.obj skvs'')))
      | none =>
          let skvs' := updAssoc ([] : List (String × Json)) "format"
            (.str "prettier --write .")
          let skvs'' := updAssoc skvs' "format:check" (.str "prettier --check .")
          some (.obj (updAssoc kvs "scripts" (.obj skvs'')))

/-- The environment `updatePackageJson` runs against: the outcome of
`readFile` (`none` = the read rejects), the external `JSON.parse` builtin as
an oracle (`none` = it throws `SyntaxError`), and whether `writeFile`
rejects. -/
structure ManifestEnv : Type where
  readResult : Option String
  parse : String → Option Json
  writeFails : Bool

/-- The `try` body of `updatePackageJson` (lines 150-164): either it runs to
completion having written `text`, or some step threw; `failed w` records the
text passed to `writeFile` when the throw came from the write itself
(`w = none` means the write was never reached). -/
inductive TryOutcome : Type where
  | completed (written : String) : TryOutcome
  | failed (writeCalled : Option String) : TryOutcome

/-- The `try` block of `updatePackageJson`: read, parse, mutate, then write
`JSON.stringify(packageJson, null, 2) + "\n"`. -/
def tryUpdate (env : ManifestEnv) : TryOutcome :=
  match env.readResult with
  | none => .failed none
  | some content =>
      match env.parse content with
      | none => .failed none
      | some doc =>
          match patchScripts doc with
          | none => .failed none
          | some patched =>
              let text := jsonStringify patched ++ "\n"
              if env.writeFails then .failed (some text) else .completed text

/-- The two console messages `updatePackageJson` can print. -/
def addedMsg : String := "Added prettier scripts to package.json."

/-- Printed by the `catch` handler. -/
def skipMsg : String := "No package.json found, skipping script addition."

/-- The observable outcome of one `updatePackageJson` call: the text passed
to `writeFile` if the write was attempted, the message printed, and whether
the returned promise rejects. -/
structure PatchOutcome : Type where
  writeCalled : Option String
  log : String
  throws : Bool

/-- `updatePackageJson` (lines 146-168): the whole body sits inside a single
`try`/`catch`, whose handler prints the skip message and returns normally. -/
def updatePackageJson (env : ManifestEnv) : PatchOutcome :=
  match tryUpdate env with
  | .completed text => ⟨some text, addedMsg, false⟩
  | .failed w => ⟨w, skipMsg, false⟩

/-! ## Lemmas about the embedding -/

theorem getLast?_append_concat {α : Type} (l₁ l₂ : List α) (a : α) :
    (l₁ ++ (l₂ ++ [a])).getLast? = some a := by
  rw [← List.append_assoc]
  exact List.getLast?_concat _

/-- The serialization of an object always ends with its closing brace, so
appending `"\n"` leaves exactly one trailing newline. -/
theorem serJson_obj_getLast (ind : List Char) (kvs : List (String × Json)) :
    (serJson ind (Json.obj kvs)).getLast? = some '}' := by
  cases kvs with
  | nil => rfl
  | cons m ms =>
      have h : serJson ind (Json.obj (m :: ms)) =
          (('{' :: '\n' :: (ind ++ gap)) ++ serMember (ind ++ gap) m ++
            serMembersRest (ind ++ gap) ms) ++ ('\n' :: (ind ++ ['}'])) := by
        rw [serJson]
        simp
      rw [h, List.getLast?_append_cons]
      have h2 : ('\n' :: (ind ++ ['}']) : List Char) = ('\n' :: ind) ++ '}' :: [] := by
        simp
      rw [h2, List.getLast?_append_cons]
      rfl

/-- The correctness contract of one `updatePackageJson` run whose manifest
parses to the object `kvs`: the patched document has the two format scripts
set, frames every other key at top level and inside `scripts`, preserves
insertion order of pre-existing keys, and the text handed to `writeFile` is
the 2-space-indented serialization plus a single trailing newline. -/
def patchedCorrectly (env : ManifestEnv) (kvs : List (String × Json)) : Prop :=
  ∃ kvs' skvs',
    patchScripts (Json.obj kvs) = some (Json.obj kvs') ∧
    getAssoc kvs' "scripts" = some (Json.obj skvs') ∧
    getAssoc skvs' "format" = some (Json.str "prettier --write .") ∧
    getAssoc skvs' "format:check" = some (Json.str "prettier --check .") ∧
    (∀ k, k ≠ "scripts" → getAssoc kvs' k = getAssoc kvs k) ∧
    keysOf kvs' = (if "scripts" ∈ keysOf kvs then keysOf kvs
      else keysOf kvs ++ ["scripts"]) ∧
    (∀ m, getAssoc kvs "scripts" = some (Json.obj m) →
      (∀ k, k ≠ "format" → k ≠ "format:check" →
        getAssoc skvs' k = getAssoc m k) ∧ List.Sublist (keysOf m) (keysOf skvs')) ∧
    (updatePackageJson env).writeCalled =
      some (jsonStringify (Json.obj kvs') ++ "\n") ∧
    (serJson [] (Json.obj kvs')).getLast? = some '}'

theorem sublist_keysOf_updAssoc {α β : Type} [DecidableEq α]
    (l : List (α × β)) (k : α) (v : β) :
    List.Sublist (keysOf l) (keysOf (updAssoc l k v)) := by
  rw [keysOf_updAssoc]
  split
  · exact List.Sublist.refl _
  · exact List.sublist_append_left _ _

/-- Both branches of `tryUpdate` after a successful read/parse/mutation pass
the serialized text to `writeFile`. -/
theorem updatePackageJson_writeCalled (env : ManifestEnv) (content : String)
    (doc patched : Json) (hread : env.readResult = some content)
    (hparse : env.parse content = some doc)
    (hpatch : patchScripts doc = some patched) :
    (updatePackageJson env).writeCalled = some (jsonStringify patched ++ "\n") := by
  cases hfail : env.writeFails <;>
    simp [updatePackageJson, tryUpdate, hread, hparse, hpatch, hfail]

/-- C8: for every manifest document (a key-value document whose `scripts`
member, when present and truthy, is itself an object) that reads and parses
successfully, the patch sets the two format scripts, creates `scripts` when
absent, frames all other keys, preserves insertion order, and serializes with
2-space indentation and a single trailing newline. -/
theorem updatePackageJson_patches (env : ManifestEnv) (content : String)
    (kvs : List (String × Json))
    (hread : env.readResult = some content)
    (hparse : env.parse content = some (Json.obj kvs))
    (hscripts : ∀ v, getAssoc kvs "scripts" = some v → truthy v = true →
      ∃ m, v = Json.obj m) :
    patchedCorrectly env kvs := by
  have hne : ("format" : String) ≠ "format:check" := by decide
  -- the base object the format keys are written into, and the patched result
  obtain ⟨base, hbase, hpatch⟩ :
      ∃ base, (∀ m, getAssoc kvs "scripts" = some (Json.obj m) → base = m) ∧
        patchScripts (Json.obj kvs) =
          some (Json.obj (updAssoc kvs "scripts" (Json.obj
            (updAssoc (updAssoc base "format" (Json.str "prettier --write ."))
              "format:check" (Json.str "prettier --check ."))))) := by
    cases h : getAssoc kvs "scripts" with
    | none =>
        refine ⟨[], ?_, ?_⟩
        · intro m hm
          simp at hm
        · simp [patchScripts, h]
    | some v =>
        cases htv : truthy v with
        | false =>
            refine ⟨[], ?_, ?_⟩
            · intro m hm
              injection hm with hv
              subst hv
              simp [truthy] at htv
            · simp [patchScripts, h, htv]
        | true =>
            obtain ⟨m, rfl⟩ := hscripts v h htv
            refine ⟨m, ?_, ?_⟩
            · intro m₀ hm₀
              injection hm₀ with hv
              injection hv with hm
            · simp [patchScripts, h, truthy]
  refine ⟨_, _, hpatch, getAssoc_updAssoc_self _ _ _, ?_, ?_, ?_, ?_, ?_, ?_, ?_⟩
  · rw [getAssoc_updAssoc_ne _ _ _ _ hne, getAssoc_updAssoc_self]
  · rw [getAssoc_updAssoc_self]
  · intro k hk
    exact getAssoc_updAssoc_ne _ _ _ _ hk
  · exact keysOf_updAssoc _ _ _
  · intro m hm
    rw [hbase m hm]
    refine ⟨?_, ?_⟩
    · intro k hk1 hk2
      rw [getAssoc_updAssoc_ne _ _ _ _ hk2, getAssoc_updAssoc_ne _ _ _ _ hk1]
    · exact (sublist_keysOf_updAssoc m "format" _).trans
        (sublist_keysOf_updAssoc _ "format:check" _)
  · exact updatePackageJson_writeCalled env content _ _ hread hparse hpatch
  · exact serJson_obj_getLast _ _

/-- A concrete run for the patch contract: the manifest of end-to-end
scenario C, `{"name":"p","scripts":{"test":"x"}}`, with a successful write. -/
def c8Env : ManifestEnv :=
  ⟨some "\x7b\"name\":\"p\",\"scripts\":\x7b\"test\":\"x\"\x7d\x7d",
    fun _ => some (Json.obj [("name", Json.str "p"),
      ("scripts", Json.obj [("test", Json.str "x")])]),
    false⟩

/-- The patch contract instantiated at scenario C's manifest. -/
theorem updatePackageJson_patches_witness :
    patchedCorrectly c8Env
      [("name", Json.str "p"), ("scripts", Json.obj [("test", Json.str "x")])] := by
  refine updatePackageJson_patches c8Env
    "\x7b\"name\":\"p\",\"scripts\":\x7b\"test\":\"x\"\x7d\x7d" _ rfl rfl ?_
  intro v hv htv
  simp [getAssoc] at hv
  exact ⟨_, hv.symm⟩

/-- C9: when the manifest read fails, or its contents fail to parse, the
patcher attempts no write, prints only the skip diagnostic, and completes
without throwing. -/
theorem updatePackageJson_skips (env : ManifestEnv)
    (h : env.readResult = none ∨
      ∀ content, env.readResult = some content → env.parse content = none) :
    updatePackageJson env = ⟨none, skipMsg, false⟩ := by
  cases h with
  | inl h => simp [updatePackageJson, tryUpdate, h]
  | inr h =>
      cases hr : env.readResult with
      | none => simp [updatePackageJson, tryUpdate, hr]
      | some content => simp [updatePackageJson, tryUpdate, hr, h content hr]

/-- The skip behaviour at a concrete environment whose read rejects. -/
theorem updatePackageJson_skips_witness :
    updatePackageJson ⟨none, fun _ => none, false⟩ = ⟨none, skipMsg, false⟩ :=
  updatePackageJson_skips ⟨none, fun _ => none, false⟩ (Or.inl rfl)

/-- An environment where the manifest reads and parses fine (`"{}"` parsing
to the empty object) but `writeFile` rejects. -/
def c1Env : ManifestEnv :=
  ⟨some "{}", fun s => if s = "{}" then some (Json.obj []) else none, true⟩

/-- C1 fails on the code: with a successful read and parse and a failing
write, `updatePackageJson` reaches `writeFile` (so the failure is the write's)
yet completes without rejecting — the `catch` wrapping the whole body swallows
the write error instead of propagating it. -/
theorem updatePackageJson_write_error_not_propagated :
    c1Env.writeFails = true ∧
      (updatePackageJson c1Env).writeCalled.isSome = true ∧
      (updatePackageJson c1Env).throws = false :=
  ⟨rfl, rfl, rfl⟩

/-- C1 amended: a write failure after a successful read/parse is caught by
the same `try`/`catch` as read/parse failures; the function completes without
rejecting and prints the skip diagnostic (the write error is swallowed). -/
theorem updatePackageJson_write_error_swallowed (env : ManifestEnv)
    (content : String) (doc patched : Json)
    (hread : env.readResult = some content)
    (hparse : env.parse content = some doc)
    (hpatch : patchScripts doc = some patched)
    (hfail : env.writeFails = true) :
    updatePackageJson env =
      ⟨some (jsonStringify patched ++ "\n"), skipMsg, false⟩ := by
  simp [updatePackageJson, tryUpdate, hread, hparse, hpatch, hfail]

/-- The swallowed-write-error behaviour at the concrete failing-write
environment. -/
theorem updatePackageJson_write_error_swallowed_witness :
    updatePackageJson c1Env =
      ⟨some (jsonStringify (Json.obj [("scripts", Json.obj
        [("format", Json.str "prettier --write ."),
         ("format:check", Json.str "prettier --check .")])]) ++ "\n"),
       skipMsg, false⟩ :=
  updatePackageJson_write_error_swallowed c1Env "{}" (Json.obj [])
    (Json.obj [("scripts", Json.obj
      [("format", Json.str "prettier --write ."),
       ("format:check", Json.str "prettier --check .")])]) rfl rfl rfl rfl

/-! ## The Interactive Prompt (`promptOverwrite`, src/index.js 37-57) -/

/-- The tri-state value `promptOverwrite` resolves with: `resolve("all")`,
`resolve(true)` or `resolve(false)`. -/
inductive Answer : Type where
  | yes : Answer
  | no : Answer
  | allRemaining : Answer
  deriving DecidableEq

/-- The answer mapping of `promptOverwrite` (lines 48-53):

```js
const lower = answer.toLowerCase();
if (lower === "a" || lower === "all") { resolve("all"); }
else { resolve(lower === "y" || lower === "yes"); }
```

`lowercase` models `toLowerCase` characterwise (they agree on the ASCII
keywords the prompt distinguishes). -/
def lowercase (s : String) : String := String.mk (s.data.map Char.toLower)

/-- The branch on the lowercased answer. -/
def interpretAnswer (answer : String) : Answer :=
  let lower := lowercase answer
  if lower = "a" ∨ lower = "all" then Answer.allRemaining
  else if lower = "y" ∨ lower = "yes" then Answer.yes
  else Answer.no

/-- C3: the prompt's answer mapping is total and case-insensitive: every
casing of `y`/`yes` maps to Yes, every casing of `a`/`all` maps to
AllRemaining, and every other string — the empty string included — maps to
No. -/
theorem interpretAnswer_mapping :
    (∀ s ∈ (["y", "Y", "yes", "yeS", "yEs", "yES", "Yes", "YeS", "YEs",
      "YES"] : List String), interpretAnswer s = Answer.yes) ∧
    (∀ s ∈ (["a", "A", "all", "alL", "aLl", "aLL", "All", "AlL", "ALl",
      "ALL"] : List String), interpretAnswer s = Answer.allRemaining) ∧
    (∀ s : String, lowercase s ∉ (["y", "yes", "a", "all"] : List String) →
      interpretAnswer s = Answer.no) ∧
    interpretAnswer "" = Answer.no := by
  refine ⟨by decide, by decide, ?_, by decide⟩
  intro s hs
  simp only [List.mem_cons, List.not_mem_nil, or_false, not_or] at hs
  obtain ⟨h1, h2, h3, h4⟩ := hs
  simp [interpretAnswer, h1, h2, h3, h4]

/-- The answer mapping applied to a string that is no casing of the four
keywords. -/
theorem interpretAnswer_mapping_witness : interpretAnswer "nope" = Answer.no :=
  interpretAnswer_mapping.2.2.1 "nope" (by decide)

/-! ## The Package Manager Detector (`detectPackageManager`, src/index.js
104-120) -/

/-- What the two `access` probes of the target directory observe: whether
`access` resolves for each lock-file marker (it resolves exactly when the
marker exists and is reachable). -/
structure TargetDir : Type where
  hasPnpmLock : Bool
  hasYarnLock : Bool

/-- The pnpm lock-file marker. -/
def pnpmMarker : String := "pnpm-lock.yaml"

/-- The yarn lock-file marker. -/
def yarnMarker : String := "yarn.lock"

/-- `detectPackageManager`: probe `pnpm-lock.yaml`, returning early on
success, then `yarn.lock`, then default to npm.  Returns the detected kind
together with the ordered trace of markers probed with `access`. -/
def detectPackageManager (d : TargetDir) : String × List String :=
  if d.hasPnpmLock then ("pnpm", [pnpmMarker])
  else if d.hasYarnLock then ("yarn", [pnpmMarker, yarnMarker])
  else ("npm", [pnpmMarker, yarnMarker])

/-- C4 fails on the code: when the pnpm marker exists the function returns
early and the yarn marker is probed zero times, not exactly once. -/
theorem detectPackageManager_skips_yarn_probe :
    (detectPackageManager ⟨true, false⟩).2.count yarnMarker = 0 ∧
      (detectPackageManager ⟨true, false⟩).1 = "pnpm" := by
  decide

/-- C4 amended: the detector probes the pnpm marker first and exactly once;
it probes the yarn marker exactly once when the pnpm marker is absent and
not at all otherwise; it returns the first kind whose marker exists, and
`"npm"` exactly when neither marker exists. -/
theorem detectPackageManager_order_and_result (d : TargetDir) :
    (detectPackageManager d).2.count pnpmMarker = 1 ∧
    (detectPackageManager d).2.count yarnMarker =
      (if d.hasPnpmLock then 0 else 1) ∧
    (detectPackageManager d).2.head? = some pnpmMarker ∧
    ((detectPackageManager d).1 = "pnpm" ↔ d.hasPnpmLock = true) ∧
    ((detectPackageManager d).1 = "yarn" ↔
      d.hasPnpmLock = false ∧ d.hasYarnLock = true) ∧
    ((detectPackageManager d).1 = "npm" ↔
      d.hasPnpmLock = false ∧ d.hasYarnLock = false) := by
  obtain ⟨p, y⟩ := d
  cases p <;> cases y <;> decide

/-! ## The Dependency Installer (`installDependency`, src/index.js 122-144) -/

/-- The fixed invocation table (lines 123-127), `packageName` substituted as
the final argument; `none` for a kind outside the table. -/
def commands (packageManager packageName : String) : Option (List String) :=
  if packageManager = "npm" then
    some ["npm", "install", "--save-dev", packageName]
  else if packageManager = "yarn" then
    some ["yarn", "add", "--dev", packageName]
  else if packageManager = "pnpm" then
    some ["pnpm", "add", "--save-dev", packageName]
  else none

/-- What the spawned child process does: either the `"error"` event fires
(the launch failed, carrying the underlying error) or the `"exit"` event
fires with an exit code. -/
inductive SpawnOutcome : Type where
  | launchError (err : String) : SpawnOutcome
  | exited (code : Int) : SpawnOutcome
  deriving DecidableEq

/-- How the promise returned by `installDependency` settles. -/
inductive InstallResult : Type where
  | resolved : InstallResult
  | rejected (msg : String) : InstallResult
  deriving DecidableEq

/-- The settlement logic of `installDependency` (lines 135-142):
`child.on("error", reject)` and `resolve()` on exit code 0, otherwise
`reject(new Error(`Installation failed with code ${code}`))`. -/
def installDependency (outcome : SpawnOutcome) : InstallResult :=
  match outcome with
  | .launchError e => .rejected e
  | .exited code =>
      if code = 0 then .resolved
      else .rejected ("Installation failed with code " ++ toString code)

/-- C5: the installer resolves exactly when the child exits with code 0;
a non-zero exit code rejects with a message that contains that code, and a
launch failure rejects with the underlying error. -/
theorem installDependency_result :
    (∀ o, installDependency o = InstallResult.resolved ↔
      o = SpawnOutcome.exited 0) ∧
    (∀ code : Int, code ≠ 0 → installDependency (SpawnOutcome.exited code) =
      InstallResult.rejected ("Installation failed with code " ++ toString code)) ∧
    (∀ code : Int, code ≠ 0 → ∃ pre suf,
      installDependency (SpawnOutcome.exited code) =
        InstallResult.rejected (pre ++ (toString code ++ suf))) ∧
    (∀ e, installDependency (SpawnOutcome.launchError e) =
      InstallResult.rejected e) := by
  refine ⟨?_, ?_, ?_, fun e => rfl⟩
  · intro o
    cases o with
    | launchError e => simp [installDependency]
    | exited code =>
        by_cases hc : code = 0 <;> simp [installDependency, hc]
  · intro code hc
    simp [installDependency, hc]
  · intro code hc
    exact ⟨"Installation failed with code ", "", by simp [installDependency, hc]⟩

/-- The installer's behaviour at exit code 2. -/
theorem installDependency_result_witness :
    installDependency (SpawnOutcome.exited 2) =
      InstallResult.rejected "Installation failed with code 2" :=
  installDependency_result.2.1 2 (by decide)

/-! ## The Directory Copier (`copyDirectory`, src/index.js 59-102)

Paths are canonical segment lists.  The source tree is given as data (the
`readdir` listing order is the list order); the destination directory and
the prompt are modelled by an environment and a threaded walk state. -/

/-- One entry of the source tree: a file with its contents, or a directory
with its `readdir` listing. -/
inductive FsEntry : Type where
  | file (name : String) (content : String) : FsEntry
  | dir (name : String) (entries : List FsEntry) : FsEntry

/-- The copy walk's environment: the canned console answers (the `n`-th
prompt of the walk receives `answers n`), and the spurious-failure oracle of
the `access` existence probe — `accessErr p = true` makes `access` on
destination path `p` reject even when the file exists (e.g. permission
denied while checking). -/
structure CopyEnv : Type where
  answers : Nat → Answer
  accessErr : List String → Bool

/-- The threaded walk state: the destination files (path to contents), the
relative paths prompted so far in order, how many prompts have been issued,
and the destination paths copied so far in order. -/
structure WalkState : Type where
  dest : List (List String × String)
  prompts : List (List String)
  answerIdx : Nat
  copies : List (List String)

/-- `promptOverwrite` as the walk observes it: print the question for
`relPath` (recorded in the prompt log) and take the next console answer. -/
def askPrompt (env : CopyEnv) (relPath : List String) (st : WalkState) :
    Answer × WalkState :=
  (env.answers st.answerIdx,
    { st with prompts := st.prompts ++ [relPath], answerIdx := st.answerIdx + 1 })

/-- `mkdir` + `copyFile` (lines 95-96): write `content` at `destPath`
(creating directories is not otherwise observable in this state). -/
def performCopy (destPath : List String) (content : String) (st : WalkState) :
    WalkState :=
  { st with dest := updAssoc st.dest destPath content,
            copies := st.copies ++ [destPath] }

/-- The per-file body of the walk (lines 74-97): compute the relative and
destination paths, probe the destination with `access` (any rejection —
absence or a spurious check error — is swallowed and leaves
`shouldCopy = true`), otherwise consult `overwriteAll` and the prompt, then
copy if `shouldCopy`.  Returns the updated `overwriteAll` flag and state. -/
def copyFileStep (env : CopyEnv) (destRoot baseSrc srcPath : List String)
    (content : String) (overwriteAll : Bool) (st : WalkState) :
    Bool × WalkState :=
  let relativePath := srcPath.drop baseSrc.length
  let destPath := destRoot ++ relativePath
  let accessOk := (getAssoc st.dest destPath).isSome && !env.accessErr destPath
  let step : Bool × Bool × WalkState :=
    if accessOk then
      if !overwriteAll then
        let a := askPrompt env relativePath st
        match a.1 with
        | Answer.allRemaining => (true, true, a.2)
        | Answer.yes => (overwriteAll, true, a.2)
        | Answer.no => (overwriteAll, false, a.2)
      else (overwriteAll, true, st)
    else (overwriteAll, true, st)
  match step with
  | (ow, shouldCopy, st') =>
      if shouldCopy then (ow, performCopy destPath content st') else (ow, st')

mutual

/-- The loop body of `copyDirectory` for one entry: recurse into a
directory, re-threading the flag, or run the per-file body. -/
def copyEntry (env : CopyEnv) (destRoot baseSrc srcDir : List String) :
    FsEntry → Bool → WalkState → Bool × WalkState
  | .file name content, overwriteAll, st =>
      copyFileStep env destRoot baseSrc (srcDir ++ [name]) content overwriteAll st
  | .dir name entries, overwriteAll, st =>
      copyEntries env destRoot baseSrc (srcDir ++ [name]) entries overwriteAll st

/-- The `for (const entry of entries)` loop of `copyDirectory`, threading
the `overwriteAll` flag left to right. -/
def copyEntries (env : CopyEnv) (destRoot baseSrc srcDir : List String) :
    List FsEntry → Bool → WalkState → Bool × WalkState
  | [], overwriteAll, st => (overwriteAll, st)
  | e :: es, overwriteAll, st =>
      match copyEntry env destRoot baseSrc srcDir e overwriteAll st with
      | (ow', st') => copyEntries env destRoot baseSrc srcDir es ow' st'

end

/-- `copyDirectory src dest baseSrc overwriteAll` on a source directory whose
`readdir` listing is `tree`. -/
def copyDirectory (env : CopyEnv) (tree : List FsEntry)
    (src dest baseSrc : List String) (overwriteAll : Bool) (st : WalkState) :
    Bool × WalkState :=
  copyEntries env dest baseSrc src tree overwriteAll st

mutual

/-- The destination paths of all files under one source entry, in walk
order. -/
def entryFileDests (destRoot baseSrc srcDir : List String) :
    FsEntry → List (List String)
  | .file name _ => [destRoot ++ (srcDir ++ [name]).drop baseSrc.length]
  | .dir name entries => entriesFileDests destRoot baseSrc (srcDir ++ [name]) entries

/-- The destination paths of all files under a listing, in walk order. -/
def entriesFileDests (destRoot baseSrc srcDir : List String) :
    List FsEntry → List (List String)
  | [] => []
  | e :: es => entryFileDests destRoot baseSrc srcDir e ++
      entriesFileDests destRoot baseSrc srcDir es

end

mutual

/-- Once the flag is set, one entry is processed with no prompt, every file
under it is copied, and the flag stays set. -/
theorem copyEntry_sticky (env : CopyEnv) (destRoot baseSrc srcDir : List String)
    (e : FsEntry) (st : WalkState) :
    (copyEntry env destRoot baseSrc srcDir e true st).1 = true ∧
    (copyEntry env destRoot baseSrc srcDir e true st).2.prompts = st.prompts ∧
    (copyEntry env destRoot baseSrc srcDir e true st).2.answerIdx = st.answerIdx ∧
    (copyEntry env destRoot baseSrc srcDir e true st).2.copies =
      st.copies ++ entryFileDests destRoot baseSrc srcDir e := by
  cases e with
  | file name content =>
      simp [copyEntry, copyFileStep, performCopy, entryFileDests]
  | dir name entries =>
      simpa [copyEntry, entryFileDests] using
        copyEntries_sticky env destRoot baseSrc (srcDir ++ [name]) entries st

/-- Once the flag is set, a whole listing is processed with no prompt, every
file under it is copied, and the flag stays set. -/
theorem copyEntries_sticky (env : CopyEnv)
    (destRoot baseSrc srcDir : List String) (es : List FsEntry)
    (st : WalkState) :
    (copyEntries env destRoot baseSrc srcDir es true st).1 = true ∧
    (copyEntries env destRoot baseSrc srcDir es true st).2.prompts = st.prompts ∧
    (copyEntries env destRoot baseSrc srcDir es true st).2.answerIdx =
      st.answerIdx ∧
    (copyEntries env destRoot baseSrc srcDir es true st).2.copies =
      st.copies ++ entriesFileDests destRoot baseSrc srcDir es := by
  cases es with
  | nil => simp [copyEntries, entriesFileDests]
  | cons e es =>
      obtain ⟨h1, h2, h3, h4⟩ := copyEntry_sticky env destRoot baseSrc srcDir e st
      have hstep : copyEntries env destRoot baseSrc srcDir (e :: es) true st =
          copyEntries env destRoot baseSrc srcDir es
            (copyEntry env destRoot baseSrc srcDir e true st).1
            (copyEntry env destRoot baseSrc srcDir e true st).2 := rfl
      rw [hstep, h1]
      obtain ⟨g1, g2, g3, g4⟩ := copyEntries_sticky env destRoot baseSrc srcDir es
        (copyEntry env destRoot baseSrc srcDir e true st).2
      refine ⟨g1, ?_, ?_, ?_⟩
      · rw [g2, h2]
      · rw [g3, h3]
      · rw [g4, h4, entriesFileDests, List.append_assoc]

end

/-- C6: a file whose computed destination path does not exist is copied with
no prompt, whatever the `overwriteAll` flag: the step returns the unchanged
flag and only performs the copy. -/
theorem copyFileStep_fresh_dest (env : CopyEnv)
    (destRoot baseSrc srcPath : List String) (content : String) (ow : Bool)
    (st : WalkState)
    (h : getAssoc st.dest (destRoot ++ srcPath.drop baseSrc.length) = none) :
    copyFileStep env destRoot baseSrc srcPath content ow st =
      (ow, performCopy (destRoot ++ srcPath.drop baseSrc.length) content st) ∧
    (performCopy (destRoot ++ srcPath.drop baseSrc.length) content st).prompts =
      st.prompts ∧
    (performCopy (destRoot ++ srcPath.drop baseSrc.length) content st).answerIdx =
      st.answerIdx ∧
    getAssoc (performCopy (destRoot ++ srcPath.drop baseSrc.length) content
        st).dest (destRoot ++ srcPath.drop baseSrc.length) = some content := by
  refine ⟨?_, rfl, rfl, ?_⟩
  · simp [copyFileStep, h]
  · exact getAssoc_updAssoc_self _ _ _

/-- The fresh-destination behaviour at a concrete walk state: empty
destination, flag set, one file — copied without prompting. -/
theorem copyFileStep_fresh_dest_witness :
    copyFileStep ⟨fun _ => Answer.no, fun _ => false⟩ ["t"] ["b"]
        ["b", "a.txt"] "hi" true ⟨[], [], 0, []⟩ =
      (true, performCopy ["t", "a.txt"] "hi" ⟨[], [], 0, []⟩) ∧
    (performCopy ["t", "a.txt"] "hi" ⟨[], [], 0, []⟩).prompts = [] ∧
    (performCopy ["t", "a.txt"] "hi" ⟨[], [], 0, []⟩).answerIdx = 0 ∧
    getAssoc (performCopy ["t", "a.txt"] "hi" ⟨[], [], 0, []⟩).dest
      ["t", "a.txt"] = some "hi" :=
  copyFileStep_fresh_dest ⟨fun _ => Answer.no, fun _ => false⟩ ["t"] ["b"]
    ["b", "a.txt"] "hi" true ⟨[], [], 0, []⟩ rfl

/-- C10: when the `access` existence probe rejects for any reason — here a
spurious check error on a path that may well exist — the error is swallowed,
no prompt is issued, and the file is copied unconditionally. -/
theorem copyFileStep_access_error (env : CopyEnv)
    (destRoot baseSrc srcPath : List String) (content : String) (ow : Bool)
    (st : WalkState)
    (h : env.accessErr (destRoot ++ srcPath.drop baseSrc.length) = true) :
    copyFileStep env destRoot baseSrc srcPath content ow st =
      (ow, performCopy (destRoot ++ srcPath.drop baseSrc.length) content st) ∧
    (performCopy (destRoot ++ srcPath.drop baseSrc.length) content st).prompts =
      st.prompts ∧
    (performCopy (destRoot ++ srcPath.drop baseSrc.length) content st).answerIdx =
      st.answerIdx ∧
    getAssoc (performCopy (destRoot ++ srcPath.drop baseSrc.length) content
        st).dest (destRoot ++ srcPath.drop baseSrc.length) = some content := by
  refine ⟨?_, rfl, rfl, ?_⟩
  · simp [copyFileStep, h]
  · exact getAssoc_updAssoc_self _ _ _

/-- The swallowed-check-error behaviour at a concrete state where the
destination file exists (content `"old"`) yet the probe errors: it is
overwritten without a prompt. -/
theorem copyFileStep_access_error_witness :
    copyFileStep ⟨fun _ => Answer.no, fun _ => true⟩ ["t"] ["b"]
        ["b", "a.txt"] "new" false ⟨[(["t", "a.txt"], "old")], [], 0, []⟩ =
      (false, performCopy ["t", "a.txt"] "new"
        ⟨[(["t", "a.txt"], "old")], [], 0, []⟩) ∧
    (performCopy ["t", "a.txt"] "new"
      ⟨[(["t", "a.txt"], "old")], [], 0, []⟩).prompts = [] ∧
    (performCopy ["t", "a.txt"] "new"
      ⟨[(["t", "a.txt"], "old")], [], 0, []⟩).answerIdx = 0 ∧
    getAssoc (performCopy ["t", "a.txt"] "new"
      ⟨[(["t", "a.txt"], "old")], [], 0, []⟩).dest ["t", "a.txt"] =
      some "new" :=
  copyFileStep_access_error ⟨fun _ => Answer.no, fun _ => true⟩ ["t"] ["b"]
    ["b", "a.txt"] "new" false ⟨[(["t", "a.txt"], "old")], [], 0, []⟩ rfl

/-- C7: at a pre-existing destination file, when the prompt answers No the
step copies nothing — the destination contents are untouched — and leaves
the `overwriteAll` flag unchanged; only the prompt log and answer counter
advance. -/
theorem copyFileStep_answer_no (env : CopyEnv)
    (destRoot baseSrc srcPath : List String) (content : String)
    (st : WalkState) (c : String)
    (hex : getAssoc st.dest (destRoot ++ srcPath.drop baseSrc.length) = some c)
    (herr : env.accessErr (destRoot ++ srcPath.drop baseSrc.length) = false)
    (hans : env.answers st.answerIdx = Answer.no) :
    (copyFileStep env destRoot baseSrc srcPath content false st).1 = false ∧
    (copyFileStep env destRoot baseSrc srcPath content false st).2.dest =
      st.dest ∧
    getAssoc (copyFileStep env destRoot baseSrc srcPath content false st).2.dest
      (destRoot ++ srcPath.drop baseSrc.length) = some c ∧
    (copyFileStep env destRoot baseSrc srcPath content false st).2.copies =
      st.copies ∧
    (copyFileStep env destRoot baseSrc srcPath content false st).2.prompts =
      st.prompts ++ [srcPath.drop baseSrc.length] := by
  have hstep : copyFileStep env destRoot baseSrc srcPath content false st =
      (false, { st with prompts := st.prompts ++ [srcPath.drop baseSrc.length],
                        answerIdx := st.answerIdx + 1 }) := by
    simp [copyFileStep, askPrompt, hex, herr, hans]
  rw [hstep]
  exact ⟨rfl, rfl, hex, rfl, rfl⟩

/-- The answer-No behaviour at a concrete conflicting file. -/
theorem copyFileStep_answer_no_witness :
    (copyFileStep ⟨fun _ => Answer.no, fun _ => false⟩ ["t"] ["b"]
      ["b", "a.txt"] "new" false ⟨[(["t", "a.txt"], "old")], [], 0, []⟩).1 =
        false ∧
    (copyFileStep ⟨fun _ => Answer.no, fun _ => false⟩ ["t"] ["b"]
      ["b", "a.txt"] "new" false ⟨[(["t", "a.txt"], "old")], [], 0, []⟩).2.dest =
        [(["t", "a.txt"], "old")] ∧
    getAssoc (copyFileStep ⟨fun _ => Answer.no, fun _ => false⟩ ["t"] ["b"]
      ["b", "a.txt"] "new" false ⟨[(["t", "a.txt"], "old")], [], 0, []⟩).2.dest
      ["t", "a.txt"] = some "old" ∧
    (copyFileStep ⟨fun _ => Answer.no, fun _ => false⟩ ["t"] ["b"]
      ["b", "a.txt"] "new" false
      ⟨[(["t", "a.txt"], "old")], [], 0, []⟩).2.copies = [] ∧
    (copyFileStep ⟨fun _ => Answer.no, fun _ => false⟩ ["t"] ["b"]
      ["b", "a.txt"] "new" false
      ⟨[(["t", "a.txt"], "old")], [], 0, []⟩).2.prompts = [["a.txt"]] :=
  copyFileStep_answer_no ⟨fun _ => Answer.no, fun _ => false⟩ ["t"] ["b"]
    ["b", "a.txt"] "new" ⟨[(["t", "a.txt"], "old")], [], 0, []⟩ "old"
    rfl rfl rfl

/-- C2: (i) a conflict answered AllRemaining sets the flag and copies; (ii)
with the flag set, the rest of the walk — directories visited later included
— copies every file without invoking the prompt, and the walk returns `true`
so the caller sees the updated flag. -/
theorem copyDirectory_allRemaining_sticky :
    (∀ (env : CopyEnv) (destRoot baseSrc srcPath : List String)
      (content : String) (st : WalkState) (c : String),
      getAssoc st.dest (destRoot ++ srcPath.drop baseSrc.length) = some c →
      env.accessErr (destRoot ++ srcPath.drop baseSrc.length) = false →
      env.answers st.answerIdx = Answer.allRemaining →
      copyFileStep env destRoot baseSrc srcPath content false st =
        (true, performCopy (destRoot ++ srcPath.drop baseSrc.length) content
          { st with prompts := st.prompts ++ [srcPath.drop baseSrc.length],
                    answerIdx := st.answerIdx + 1 })) ∧
    (∀ (env : CopyEnv) (tree : List FsEntry) (src dest baseSrc : List String)
      (st : WalkState),
      (copyDirectory env tree src dest baseSrc true st).1 = true ∧
      (copyDirectory env tree src dest baseSrc true st).2.prompts =
        st.prompts ∧
      (copyDirectory env tree src dest baseSrc true st).2.answerIdx =
        st.answerIdx ∧
      (copyDirectory env tree src dest baseSrc true st).2.copies =
        st.copies ++ entriesFileDests dest baseSrc src tree) := by
  constructor
  · intro env destRoot baseSrc srcPath content st c hex herr hans
    simp [copyFileStep, askPrompt, hex, herr, hans]
  · intro env tree src dest baseSrc st
    exact copyEntries_sticky env dest baseSrc src tree st

/-- The sticky behaviour at concrete inputs: an AllRemaining answer on a
conflicting file, and a flag-set walk of `{a.txt, sub/{b.txt}}` against a
destination already holding both files — both copied, no prompts. -/
theorem copyDirectory_allRemaining_sticky_witness :
    copyFileStep ⟨fun _ => Answer.allRemaining, fun _ => false⟩ ["t"] ["b"]
        ["b", "a.txt"] "new" false ⟨[(["t", "a.txt"], "old")], [], 0, []⟩ =
      (true, performCopy ["t", "a.txt"] "new"
        ⟨[(["t", "a.txt"], "old")], [["a.txt"]], 1, []⟩) ∧
    (copyDirectory ⟨fun _ => Answer.no, fun _ => false⟩
        [FsEntry.file "a.txt" "x",
         FsEntry.dir "sub" [FsEntry.file "b.txt" "y"]] ["b"] ["t"] ["b"] true
        ⟨[(["t", "a.txt"], "old"), (["t", "sub", "b.txt"], "old")], [], 0,
          []⟩).1 = true ∧
    (copyDirectory ⟨fun _ => Answer.no, fun _ => false⟩
        [FsEntry.file "a.txt" "x",
         FsEntry.dir "sub" [FsEntry.file "b.txt" "y"]] ["b"] ["t"] ["b"] true
        ⟨[(["t", "a.txt"], "old"), (["t", "sub", "b.txt"], "old")], [], 0,
          []⟩).2.prompts = [] ∧
    (copyDirectory ⟨fun _ => Answer.no, fun _ => false⟩
        [FsEntry.file "a.txt" "x",
         FsEntry.dir "sub" [FsEntry.file "b.txt" "y"]] ["b"] ["t"] ["b"] true
        ⟨[(["t", "a.txt"], "old"), (["t", "sub", "b.txt"], "old")], [], 0,
          []⟩).2.copies = [["t", "a.txt"], ["t", "sub", "b.txt"]] := by
  have h := copyDirectory_allRemaining_sticky
  have h2 := h.2 ⟨fun _ => Answer.no, fun _ => false⟩
    [FsEntry.file "a.txt" "x", FsEntry.dir "sub" [FsEntry.file "b.txt" "y"]]
    ["b"] ["t"] ["b"]
    ⟨[(["t", "a.txt"], "old"), (["t", "sub", "b.txt"], "old")], [], 0, []⟩
  exact ⟨h.1 ⟨fun _ => Answer.allRemaining, fun _ => false⟩ ["t"] ["b"]
      ["b", "a.txt"] "new" ⟨[(["t", "a.txt"], "old")], [], 0, []⟩ "old"
      rfl rfl rfl,
    h2.1, h2.2.1, by simpa [entriesFileDests, entryFileDests] using h2.2.2.2⟩

end Initkit
